import Mathlib

/-!
The five CRUD handlers of go-restful-api (`main.go`).

A shallow embedding of `src/main.go`.  The handlers `getUsers`, `getUser`,
`updateUser`, `createUser` and `deleteUser` are translated statement by
statement.  The library calls they make are modelled explicitly:

* `strconv.Atoi`               : `Atoi` (64-bit `int`);
* `http.ResponseWriter`        : `ResponseWriter` with `WriteHeader`, `Write`
                                 and `http.Error` (`Error`);
* `json.MarshalIndent`         : `MarshalIndentUser`, `MarshalIndentUsers`;
* `json.NewDecoder(..).Decode` : the request carries the outcome of decoding
                                 its body into a zero `User`;
* `*gorm.DB` on the MySQL table: `DB` with `Find`, `FindWhereID`, `Create`,
                                 `Updates`, `Delete`, each call recorded in
                                 `DB.log`.

`log.Println` only writes to the server log and is left out.

Assumptions of the store model: the database is reachable and only these
handlers write to the table; column values are stored and read back
unchanged; the id column is BIGINT UNSIGNED, so stored ids are below `2^64`
and the AUTO_INCREMENT counter is at most `2^64`, where it is exhausted; a
write fails on a duplicate primary key, on an exhausted counter or on an id
that does not fit the column; an update that raises an id raises the counter
with it (MySQL 8).
-/

namespace GoRestfulApi

/-! ## Data model -/

/-- The `User` struct of `main.go`; the zero value is the default. -/
structure User where
  ID : Nat := 0
  Firstname : String := ""
  Lastname : String := ""
  Occupation : String := ""
deriving DecidableEq, Repr

/-! ## strconv.Atoi -/

/-- The two kinds of `*strconv.NumError`. -/
inductive NumError where
  | ErrSyntax
  | ErrRange
deriving DecidableEq, Repr

/-- Value of a run of decimal digits, most significant first. -/
def digitsValue (ds : List Char) : Nat :=
  ds.foldl (fun n ch => n * 10 + (ch.toNat - 48)) 0

/-- Go `strconv.Atoi` for a 64-bit `int`: an optional sign `+` or `-`, then one
or more decimal digits; the value must lie in `[-2^63, 2^63 - 1]`. -/
def Atoi (s : String) : Except NumError Int :=
  match s.data with
  | [] => .error .ErrSyntax
  | c :: cs =>
    let neg : Bool := c = '-'
    let ds : List Char := if c = '-' ∨ c = '+' then cs else c :: cs
    if ds = [] then .error .ErrSyntax
    else if ds.all Char.isDigit then
      let un := digitsValue ds
      if !neg ∧ un ≥ 2 ^ 63 then .error .ErrRange
      else if neg ∧ un > 2 ^ 63 then .error .ErrRange
      else .ok (if neg then -(un : Int) else (un : Int))
    else .error .ErrSyntax

/-! ## net/http -/

def StatusOK : Nat := 200
def StatusBadRequest : Nat := 400
def StatusNotFound : Nat := 404

/-- The observable part of an `http.ResponseWriter`: the status code of the
first `WriteHeader` (if any) and the bytes written to the body so far. -/
structure ResponseWriter where
  wroteHeader : Option Nat := none
  body : String := ""
deriving DecidableEq, Repr

namespace ResponseWriter

/-- The first call fixes the status code; later calls are superfluous and
change nothing. -/
def WriteHeader (w : ResponseWriter) (code : Nat) : ResponseWriter :=
  match w.wroteHeader with
  | some _ => w
  | none => { w with wroteHeader := some code }

/-- Appends to the body; when no header was written yet, it first writes
`WriteHeader(StatusOK)`. -/
def Write (w : ResponseWriter) (bs : String) : ResponseWriter :=
  let w1 := w.WriteHeader StatusOK
  { w1 with body := w1.body ++ bs }

/-- The status code the client receives: the one written, or 200 when the
handler returns without writing a header. -/
def status (w : ResponseWriter) : Nat :=
  w.wroteHeader.getD StatusOK

end ResponseWriter

/-- Go `http.Error(w, error, code)`: writes the header with `code`, then the
message followed by a newline (`fmt.Fprintln`). -/
def Error (w : ResponseWriter) (error : String) (code : Nat) : ResponseWriter :=
  (w.WriteHeader code).Write (error ++ "\n")

/-- An incoming request as the handlers use it: `r.PathValue("id")` and the
outcome of `json.NewDecoder(r.Body).Decode(&user)` on a zero `User`
(`.error` when the body does not decode, `.ok user` with the decoded struct
otherwise; fields absent from the body stay zero). -/
structure Request where
  pathId : String := ""
  body : Except String User := .error "EOF"

/-! ## encoding/json: MarshalIndent -/

def hexDigit (n : Nat) : Char :=
  "0123456789abcdef".data.getD n '0'

/-- Escaping of one character inside a JSON string, as `encoding/json` does
with HTML escaping on (the default of `Marshal`). -/
def escapeChar (c : Char) : List Char :=
  if c = '\\' ∨ c = '"' then ['\\', c]
  else if c.toNat = 8 then ['\\', 'b']
  else if c.toNat = 12 then ['\\', 'f']
  else if c = '\n' then ['\\', 'n']
  else if c = '\r' then ['\\', 'r']
  else if c = '\t' then ['\\', 't']
  else if c.toNat < 32 ∨ c = '<' ∨ c = '>' ∨ c = '&' then
    ['\\', 'u', '0', '0', hexDigit (c.toNat / 16), hexDigit (c.toNat % 16)]
  else if c.toNat = 0x2028 ∨ c.toNat = 0x2029 then
    ['\\', 'u', '2', '0', '2', hexDigit (c.toNat % 16)]
  else [c]

/-- A Go string as a quoted JSON string. -/
def quoteString (s : String) : String :=
  "\"" ++ String.mk (s.data.flatMap escapeChar) ++ "\""

/-- The indentation at nesting depth `d` with prefix `""` and indent `" "`. -/
def indent (d : Nat) : String :=
  "\n" ++ String.mk (List.replicate d ' ')

/-- A `User` object rendered at nesting depth `d`. -/
def renderUser (d : Nat) (u : User) : String :=
  "\x7b" ++ indent (d + 1) ++ "\"ID\": " ++ toString u.ID ++ ","
    ++ indent (d + 1) ++ "\"Firstname\": " ++ quoteString u.Firstname ++ ","
    ++ indent (d + 1) ++ "\"Lastname\": " ++ quoteString u.Lastname ++ ","
    ++ indent (d + 1) ++ "\"Occupation\": " ++ quoteString u.Occupation
    ++ indent d ++ "\x7d"

/-- Go `json.MarshalIndent(user, "", " ")` for a `User`; a struct of an
unsigned integer and three strings always marshals. -/
def MarshalIndentUser (user : User) : Except String String :=
  .ok (renderUser 0 user)

/-- A non-nil `[]User` rendered at nesting depth `d`. -/
def renderUserList (d : Nat) (users : List User) : String :=
  match users with
  | [] => "[]"
  | _ :: _ =>
    "[" ++ indent (d + 1)
      ++ ("," ++ indent (d + 1)).intercalate (users.map (renderUser (d + 1)))
      ++ indent d ++ "]"

/-- Go `json.MarshalIndent(Users{Users: users}, "", " ")`. -/
def MarshalIndentUsers (users : List User) : Except String String :=
  .ok ("\x7b" ++ indent 1 ++ "\"Users\": " ++ renderUserList 1 users ++ indent 0 ++ "\x7d")

/-! ## gorm on the MySQL table `users` -/

/-- Errors the database reports for a write. -/
inductive DBError where
  | ErrDuplicatedKey
  | ErrAutoIncrement
  | ErrOutOfRange
deriving DecidableEq, Repr

/-- The number of values of a Go `uint` and of the BIGINT UNSIGNED id column:
ids range over `0 .. 2^64 - 1`. -/
def uintRange : Nat := 2 ^ 64

/-- The gorm calls a handler can issue, with their arguments. -/
inductive Call where
  | Find
  | FindWhereID (id : Int)
  | Create (user : User)
  | Updates (id : Int) (user : User)
  | Delete (id : Int)
deriving DecidableEq, Repr

/-- The store behind `*gorm.DB`: the rows of table `users` in scan order, the
table's AUTO_INCREMENT counter, and the trace of calls issued so far. -/
structure DB where
  rows : List User := []
  autoInc : Nat := 1
  log : List Call := []
deriving DecidableEq, Repr

namespace DB

/-- Go `db.Find(&users)`: `SELECT * FROM users`. -/
def Find (db : DB) : DB × List User :=
  ({ db with log := db.log ++ [Call.Find] }, db.rows)

/-- Go `db.Find(&dest, "id = ?", id)` with a struct destination: the first row
of `SELECT * FROM users WHERE id = ?` is scanned into `dest`; with no row,
`dest` is left as it was.  The column is unsigned and `id` is a Go `int`, so a
negative `id` equals no stored id. -/
def FindWhereID (db : DB) (dest : User) (id : Int) : DB × User :=
  ({ db with log := db.log ++ [Call.FindWhereID id] },
    match db.rows.find? (fun row => (row.ID : Int) = id) with
    | some row => row
    | none => dest)

/-- Go `db.Create(&user)`: `INSERT INTO users`.  With `user.ID` zero the id
column is left to AUTO_INCREMENT and the assigned id is written back to
`user.ID`; when the counter has passed the largest id of the column, `2^64 - 1`,
the insert fails.  A non-zero `user.ID` is inserted as given and raises the
counter past it; a Go `uint` is below `2^64`, a larger value does not fit the
column.  The primary key is unique: an insert whose id is already stored
fails.  A failed insert stores no row. -/
def Create (db : DB) (user : User) : DB × User × Option DBError :=
  let db1 : DB := { db with log := db.log ++ [Call.Create user] }
  if user.ID = 0 then
    let id := db1.autoInc
    if uintRange ≤ id then
      (db1, user, some DBError.ErrAutoIncrement)
    else if db1.rows.any (fun row => row.ID = id) then
      ({ db1 with autoInc := id + 1 }, user, some DBError.ErrDuplicatedKey)
    else
      ({ db1 with rows := db1.rows ++ [{ user with ID := id }], autoInc := id + 1 },
        { user with ID := id }, none)
  else
    if uintRange ≤ user.ID then
      (db1, user, some DBError.ErrOutOfRange)
    else if db1.rows.any (fun row => row.ID = user.ID) then
      (db1, user, some DBError.ErrDuplicatedKey)
    else
      ({ db1 with rows := db1.rows ++ [user], autoInc := max db1.autoInc (user.ID + 1) },
        user, none)

/-- The row after `UPDATE users SET ...` built from the struct `user`: gorm
puts only the non-zero fields of `user` into the SET clause. -/
def merge (row user : User) : User :=
  { ID := if user.ID = 0 then row.ID else user.ID
    Firstname := if user.Firstname = "" then row.Firstname else user.Firstname
    Lastname := if user.Lastname = "" then row.Lastname else user.Lastname
    Occupation := if user.Occupation = "" then row.Occupation else user.Occupation }

/-- Go `db.Model(&User{}).Where("id = ?", id).Updates(user)`: every row with
that id is overwritten by `merge`.  `user` is passed by value, so a non-zero
`user.ID` is part of the SET clause; when it does not fit the column, or when
it would give a matched row the id of another stored row, the statement fails
and changes nothing. -/
def Updates (db : DB) (id : Int) (user : User) : DB × Option DBError :=
  let db1 : DB := { db with log := db.log ++ [Call.Updates id user] }
  if uintRange ≤ user.ID then
    (db1, some DBError.ErrOutOfRange)
  else if user.ID ≠ 0 ∧ db1.rows.any (fun row => (row.ID : Int) = id)
      ∧ db1.rows.any (fun row => row.ID = user.ID ∧ (row.ID : Int) ≠ id) then
    (db1, some DBError.ErrDuplicatedKey)
  else
    ({ db1 with
        rows := db1.rows.map (fun row => if (row.ID : Int) = id then merge row user else row)
        autoInc := if db1.rows.any (fun row => (row.ID : Int) = id)
                   then max db1.autoInc (user.ID + 1) else db1.autoInc },
      none)

/-- Go `db.Delete(&User{}, id)`: `DELETE FROM users WHERE id = ?`; `User` has
no `DeletedAt` field, so the rows are removed for good. -/
def Delete (db : DB) (id : Int) : DB × Option DBError :=
  ({ db with
      rows := db.rows.filter (fun row => ¬ ((row.ID : Int) = id))
      log := db.log ++ [Call.Delete id] },
    none)

/-- The table invariant MySQL maintains: the counter is positive, no stored id
is zero, every stored id is below the counter, and ids are unique. -/
def WF (db : DB) : Prop :=
  0 < db.autoInc ∧ (∀ row ∈ db.rows, row.ID ≠ 0) ∧ (∀ row ∈ db.rows, row.ID < db.autoInc)
    ∧ (db.rows.map User.ID).Nodup

/-- The counter never passes `2^64`; with `WF`, every stored id fits a Go
`uint`. -/
def InRange (db : DB) : Prop :=
  db.autoInc ≤ uintRange

instance (db : DB) : Decidable db.WF := by
  unfold WF; infer_instance

instance (db : DB) : Decidable db.InRange := by
  unfold InRange; infer_instance

end DB

/-! ## Handler functions -/

/-- Handler of `GET /users`. -/
def getUsers (db : DB) (w : ResponseWriter) (_r : Request) : DB × ResponseWriter :=
  -- List all the users and store the result in 'users'
  let (db, users) := db.Find
  match MarshalIndentUsers users with
  | .error _ => (db, w.Write "")
  | .ok bs => (db, w.Write bs)

/-- Handler of `GET /users/{id}`. -/
def getUser (db : DB) (w : ResponseWriter) (r : Request) : DB × ResponseWriter :=
  let user : User := {}
  -- Convert the ID to integer and perform a validation
  match Atoi r.pathId with
  | .error _ => (db, Error w "Invalid User ID" StatusNotFound)
  | .ok user_id =>
    -- Find the user record with given User ID
    let (db, user) := db.FindWhereID user user_id
    match MarshalIndentUser user with
    | .error _ => (db, Error w "An ERROR Occerued" StatusNotFound)
    | .ok bs =>
      if user.ID = 0 then (db, w.Write "\x7b\x7d")
      else (db, w.Write bs)

/-- Handler of `POST /users/{id}`. -/
def updateUser (db : DB) (w : ResponseWriter) (r : Request) : DB × ResponseWriter :=
  -- Parse the incoming request body and store the result in 'user'
  match r.body with
  | .error _ => (db, Error w "Unable to parse data" StatusBadRequest)
  | .ok user =>
    match Atoi r.pathId with
    | .error _ => (db, Error w "Invalid User ID" StatusNotFound)
    | .ok user_id =>
      let user_db : User := {}
      let (db, user_db) := db.FindWhereID user_db user_id
      let (db, w) :=
        if user_db.ID = 0 then
          (db, Error w "Record does not exist" StatusBadRequest)
        else
          -- Update the record with the given User ID
          ((db.Updates user_id user).1, w)
      (db, w.Write "Record updated successfuly")

/-- Handler of `POST /users`. -/
def createUser (db : DB) (w : ResponseWriter) (r : Request) : DB × ResponseWriter :=
  -- Parse the request body into JSON object
  match r.body with
  | .error _ => (db, Error w "Unable to parse data" StatusBadRequest)
  | .ok user =>
    -- Create the record
    let (db, _, _) := db.Create user
    (db, w.Write "\x7b\x7d")

/-- Handler of `DELETE /users/{id}`. -/
def deleteUser (db : DB) (w : ResponseWriter) (r : Request) : DB × ResponseWriter :=
  match Atoi r.pathId with
  | .error _ => (db, Error w "Invalid User ID" StatusNotFound)
  | .ok user_id =>
    -- Delete the record
    let (db, _) := db.Delete user_id
    (db, w.Write "Record Deleted")

/-! ## The three error categories of the handlers -/

/-- Category (a): the path id does not parse as an integer. -/
def malformedPathId (r : Request) : Bool :=
  match Atoi r.pathId with
  | .error _ => true
  | .ok _ => false

/-- Category (b): the request body does not decode as JSON into a `User`. -/
def malformedBody (r : Request) : Bool :=
  match r.body with
  | .error _ => true
  | .ok _ => false

/-- Category (c): the path id parses and the lookup before the update returns
the zero sentinel. -/
def lookupMisses (db : DB) (r : Request) : Bool :=
  match Atoi r.pathId with
  | .error _ => false
  | .ok user_id => (db.FindWhereID {} user_id).2.ID = 0

/-! ## Lemmas on the response writer and the store calls -/

/-- A decimal digit character has the value of its digit. -/
theorem digitChar_value (m : Nat) (h : m < 10) :
    (Nat.digitChar m).toNat - 48 = m ∧ (Nat.digitChar m).isDigit = true := by
  interval_cases m <;> decide

/-- The digits written in front of `ds` carry the value `n`. -/
theorem toDigitsCore_value (fuel : Nat) : ∀ (n : Nat) (ds : List Char), n < fuel →
    digitsValue (Nat.toDigitsCore 10 fuel n ds)
      = ds.foldl (fun k ch => k * 10 + (ch.toNat - 48)) n := by
  induction fuel with
  | zero => intro n ds h; omega
  | succ fuel ih =>
    intro n ds h
    have hd := (digitChar_value (n % 10) (Nat.mod_lt _ (by decide))).1
    simp only [Nat.toDigitsCore]
    by_cases h0 : n / 10 = 0
    · simp only [h0, if_true, digitsValue, List.foldl_cons, hd]
      congr 1
      omega
    · simp only [h0, if_false]
      rw [ih (n / 10) _ (by omega)]
      simp only [List.foldl_cons, hd]
      congr 1
      omega

/-- The decimal form of a number is a non-empty run of digits. -/
theorem toDigitsCore_all (fuel : Nat) : ∀ (n : Nat) (ds : List Char),
    ds.all Char.isDigit = true → 0 < fuel →
    (Nat.toDigitsCore 10 fuel n ds).all Char.isDigit = true
      ∧ Nat.toDigitsCore 10 fuel n ds ≠ [] := by
  induction fuel with
  | zero => intro n ds _ h; omega
  | succ fuel ih =>
    intro n ds hds _
    have hd := (digitChar_value (n % 10) (Nat.mod_lt _ (by decide))).2
    have hcons : (Nat.digitChar (n % 10) :: ds).all Char.isDigit = true := by
      simp only [List.all_cons, hd, hds, Bool.and_self]
    simp only [Nat.toDigitsCore]
    by_cases h0 : n / 10 = 0
    · simp only [h0, if_true]
      exact ⟨hcons, List.cons_ne_nil _ _⟩
    · simp only [h0, if_false]
      cases fuel with
      | zero => simp [Nat.toDigitsCore, hcons]
      | succ fuel => exact ih (n / 10) _ hcons (Nat.succ_pos _)

/-- The decimal form of an id below `2^63` parses to that id: every such id
can be written as a path id. -/
theorem Atoi_toString (k : Nat) (h : k < 2 ^ 63) : Atoi (toString k) = .ok (k : Int) := by
  have hdata : (toString k).data = Nat.toDigits 10 k := rfl
  obtain ⟨hall, hne⟩ := toDigitsCore_all (k + 1) k [] rfl (Nat.succ_pos _)
  have hval : digitsValue (Nat.toDigits 10 k) = k :=
    toDigitsCore_value (k + 1) k [] (Nat.lt_succ_self _)
  unfold Atoi
  rw [hdata]
  change Nat.toDigits 10 k ≠ [] at hne
  change (Nat.toDigits 10 k).all Char.isDigit = true at hall
  cases hl : Nat.toDigits 10 k with
  | nil => exact absurd hl hne
  | cons c cs =>
    have hall2 : (c :: cs).all Char.isDigit = true := by rw [← hl]; exact hall
    have hc : c.isDigit = true := by
      simp only [List.all_cons, Bool.and_eq_true] at hall2
      exact hall2.1
    have hminus : c ≠ '-' := by rintro rfl; exact absurd hc (by decide)
    have hplus : c ≠ '+' := by rintro rfl; exact absurd hc (by decide)
    have hval2 : digitsValue (c :: cs) = k := by rw [← hl]; exact hval
    simp only [hminus, hplus, or_self, if_false, hall2, if_true, hval2, decide_False]
    simp
    omega

theorem String.nil_append (s : String) : ("" : String) ++ s = s := by
  apply String.ext; simp

/-- On a fresh writer `http.Error` fixes the status and writes the message
line. -/
theorem Error_fresh (msg : String) (code : Nat) :
    Error {} msg code = { wroteHeader := some code, body := msg ++ "\n" } := by
  simp [Error, ResponseWriter.WriteHeader, ResponseWriter.Write, String.nil_append]

/-- On a fresh writer `Write` answers 200 with the bytes written. -/
theorem Write_fresh (bs : String) :
    ResponseWriter.Write {} bs = { wroteHeader := some StatusOK, body := bs } := by
  simp [ResponseWriter.WriteHeader, ResponseWriter.Write, String.nil_append]

/-- A write after `http.Error` appends to the body and keeps the status. -/
theorem Write_after_Error (msg bs : String) (code : Nat) :
    (Error {} msg code).Write bs = { wroteHeader := some code, body := msg ++ "\n" ++ bs } := by
  simp [Error, ResponseWriter.WriteHeader, ResponseWriter.Write, String.nil_append]

/-- The row a lookup returns when no stored id equals `id`. -/
theorem FindWhereID_none (db : DB) (dest : User) (id : Int)
    (h : ∀ row ∈ db.rows, (row.ID : Int) ≠ id) :
    (db.FindWhereID dest id).2 = dest := by
  have : db.rows.find? (fun row => decide ((row.ID : Int) = id)) = none := by
    rw [List.find?_eq_none]
    intro row hrow
    simpa using h row hrow
  simp [DB.FindWhereID, this]

/-- A lookup changes the trace only. -/
theorem FindWhereID_db (db : DB) (dest : User) (id : Int) :
    (db.FindWhereID dest id).1 = { db with log := db.log ++ [Call.FindWhereID id] } := rfl

/-- The response of `getUser` when the path id does not parse. -/
theorem getUser_of_error (db : DB) (r : Request) (e : NumError)
    (h : Atoi r.pathId = .error e) :
    getUser db {} r = (db, { wroteHeader := some StatusNotFound, body := "Invalid User ID\n" }) := by
  simp [getUser, h, Error_fresh]

/-- The response of `getUser` when the path id parses. -/
theorem getUser_of_ok (db : DB) (r : Request) (user_id : Int)
    (h : Atoi r.pathId = .ok user_id) :
    getUser db {} r =
      ({ db with log := db.log ++ [Call.FindWhereID user_id] },
        { wroteHeader := some StatusOK,
          body := if (db.FindWhereID {} user_id).2.ID = 0 then "\x7b\x7d"
                  else renderUser 0 (db.FindWhereID {} user_id).2 }) := by
  simp only [getUser, h, MarshalIndentUser, FindWhereID_db]
  split <;> simp [Write_fresh]

/-- The response of `updateUser` once the body decoded and the path id parsed:
the status and the first line depend on the lookup, the success message is
written in both cases. -/
theorem updateUser_of_ok (db : DB) (r : Request) (user : User) (user_id : Int)
    (hbody : r.body = .ok user) (hid : Atoi r.pathId = .ok user_id) :
    updateUser db {} r =
      if (db.FindWhereID {} user_id).2.ID = 0 then
        ({ db with log := db.log ++ [Call.FindWhereID user_id] },
          { wroteHeader := some StatusBadRequest,
            body := "Record does not exist\n" ++ "Record updated successfuly" })
      else
        ((DB.Updates { db with log := db.log ++ [Call.FindWhereID user_id] } user_id user).1,
          { wroteHeader := some StatusOK, body := "Record updated successfuly" }) := by
  simp only [updateUser, hbody, hid, FindWhereID_db]
  split <;> simp [Write_fresh, Write_after_Error]

/-! ## The claims -/

/-- C1: `updateUser`, when the body decodes, the path id parses and the lookup
returns the zero sentinel, answers 400 and leaves the table as it was: rows
and counter are unchanged and the only call issued is the lookup, so no
`Updates` is sent. -/
theorem updateUser_missing_record_400 (db : DB) (r : Request) (user : User) (user_id : Int)
    (hbody : r.body = .ok user) (hid : Atoi r.pathId = .ok user_id)
    (hfind : (db.FindWhereID {} user_id).2.ID = 0) :
    (updateUser db {} r).2.status = 400
      ∧ (updateUser db {} r).1.rows = db.rows
      ∧ (updateUser db {} r).1.rows.length = db.rows.length
      ∧ (updateUser db {} r).1.autoInc = db.autoInc
      ∧ (updateUser db {} r).1.log = db.log ++ [Call.FindWhereID user_id] := by
  rw [updateUser_of_ok db r user user_id hbody hid, if_pos hfind]
  simp [ResponseWriter.status, StatusBadRequest]

theorem updateUser_missing_record_400_witness :
    (updateUser { rows := [{ ID := 1, Firstname := "A" }], autoInc := 2 } {}
        { pathId := "7", body := .ok { Firstname := "X" } }).2.status = 400
      ∧ (updateUser { rows := [{ ID := 1, Firstname := "A" }], autoInc := 2 } {}
        { pathId := "7", body := .ok { Firstname := "X" } }).1.rows
          = [{ ID := 1, Firstname := "A" }] :=
  have h := updateUser_missing_record_400
    { rows := [{ ID := 1, Firstname := "A" }], autoInc := 2 }
    { pathId := "7", body := .ok { Firstname := "X" } } { Firstname := "X" } 7 rfl rfl rfl
  ⟨h.1, h.2.1⟩

/-- C2: on an empty table, `updateUser` with path id `1` and a body that
decodes to `Firstname = "X"` answers 400 and its body is the error line
followed by the success message. -/
theorem updateUser_missing_record_body :
    updateUser {} {} { pathId := "1", body := .ok { Firstname := "X" } }
      = ({ log := [Call.FindWhereID 1] },
          { wroteHeader := some 400,
            body := "Record does not exist\nRecord updated successfuly" }) := by
  rfl

/-- C3: `getUser` with a path id that `strconv.Atoi` rejects answers 404 with
the line `Invalid User ID`; the store is returned as it was, trace included,
so no query is issued. -/
theorem getUser_invalid_id_404 (db : DB) (r : Request) (e : NumError)
    (h : Atoi r.pathId = .error e) :
    (getUser db {} r).2.status = 404
      ∧ (getUser db {} r).2.body = "Invalid User ID\n"
      ∧ (getUser db {} r).1 = db := by
  rw [getUser_of_error db r e h]
  simp [ResponseWriter.status, StatusNotFound]

theorem getUser_invalid_id_404_witness :
    (getUser { rows := [{ ID := 1, Firstname := "A" }], autoInc := 2 } {}
        { pathId := "abc" }).2.status = 404
      ∧ (getUser { rows := [{ ID := 1, Firstname := "A" }], autoInc := 2 } {}
        { pathId := "abc" }).2.body = "Invalid User ID\n"
      ∧ (getUser { rows := [{ ID := 1, Firstname := "A" }], autoInc := 2 } {}
        { pathId := "abc" }).1 = { rows := [{ ID := 1, Firstname := "A" }], autoInc := 2 } :=
  getUser_invalid_id_404 { rows := [{ ID := 1, Firstname := "A" }], autoInc := 2 }
    { pathId := "abc" } NumError.ErrSyntax rfl

/-- With unique ids, the lookup of the id of a stored row returns that row. -/
theorem FindWhereID_of_mem (db : DB) (dest row : User) (hwf : db.WF) (hrow : row ∈ db.rows) :
    (db.FindWhereID dest (row.ID : Int)).2 = row := by
  obtain ⟨_, _, _, hnodup⟩ := hwf
  have hinj : ∀ a ∈ db.rows, ∀ b ∈ db.rows, a.ID = b.ID → a = b :=
    fun a ha b hb hab => List.inj_on_of_nodup_map hnodup ha hb hab
  cases hfind : db.rows.find? (fun old => decide ((old.ID : Int) = (row.ID : Int))) with
  | none =>
    rw [List.find?_eq_none] at hfind
    have hno := hfind row hrow
    simp at hno
  | some found =>
    have hmem := List.mem_of_find?_eq_some hfind
    have hid := List.find?_some hfind
    simp only [decide_eq_true_eq, Nat.cast_inj] at hid
    simp only [DB.FindWhereID, hfind]
    exact hinj found hmem row hrow hid

/-- C4: `getUser` with a path id that parses: when no stored row has that id
the answer is 200 with the two bytes of an empty JSON object; when a row of a
well-formed table has that id the answer is 200 with that row serialized by
`MarshalIndent`. -/
theorem getUser_soft_not_found (db : DB) (r : Request) (user_id : Int)
    (hid : Atoi r.pathId = .ok user_id) :
    ((∀ row ∈ db.rows, (row.ID : Int) ≠ user_id) →
        (getUser db {} r).2.status = 200
          ∧ (getUser db {} r).2.body = "\x7b\x7d"
          ∧ (getUser db {} r).2.body.utf8ByteSize = 2)
      ∧ (∀ row ∈ db.rows, db.WF → (row.ID : Int) = user_id →
        (getUser db {} r).2.status = 200
          ∧ MarshalIndentUser row = .ok (getUser db {} r).2.body) := by
  rw [getUser_of_ok db r user_id hid]
  refine ⟨fun hnone => ?_, fun row hrow hwf hmatch => ?_⟩
  · rw [FindWhereID_none db {} user_id hnone]
    exact ⟨rfl, rfl, rfl⟩
  · subst hmatch
    rw [FindWhereID_of_mem db {} row hwf hrow]
    have hnz : row.ID ≠ 0 := hwf.2.1 row hrow
    simp [ResponseWriter.status, StatusOK, MarshalIndentUser, hnz]

theorem getUser_soft_not_found_witness :
    (getUser { rows := [{ ID := 1, Firstname := "A" }], autoInc := 2 } {}
        { pathId := "4611686018427387904" }).2.body = "\x7b\x7d"
      ∧ (getUser { rows := [{ ID := 1, Firstname := "A" }], autoInc := 2 } {}
        { pathId := "1" }).2.body
          = "\x7b\n \"ID\": 1,\n \"Firstname\": \"A\",\n \"Lastname\": \"\",\n \"Occupation\": \"\"\n\x7d" :=
  ⟨((getUser_soft_not_found { rows := [{ ID := 1, Firstname := "A" }], autoInc := 2 }
        { pathId := "4611686018427387904" } 4611686018427387904 rfl).1 (by decide)).2.1,
    Except.ok.inj ((getUser_soft_not_found { rows := [{ ID := 1, Firstname := "A" }], autoInc := 2 }
        { pathId := "1" } 1 rfl).2 { ID := 1, Firstname := "A" } (by decide) (by decide)
          (by decide)).2.symm⟩

/-- C5: `createUser` with a body that does not decode answers 400 with the
line `Unable to parse data`; the store is returned as it was, so nothing is
inserted, the row count is the same and no call is issued. -/
theorem createUser_bad_body_400 (db : DB) (r : Request) (e : String)
    (hbody : r.body = .error e) :
    (createUser db {} r).2.status = 400
      ∧ (createUser db {} r).2.body = "Unable to parse data\n"
      ∧ (createUser db {} r).1 = db
      ∧ (createUser db {} r).1.rows.length = db.rows.length := by
  simp [createUser, hbody, Error_fresh, ResponseWriter.status, StatusBadRequest]

theorem createUser_bad_body_400_witness :
    (createUser { rows := [{ ID := 1, Firstname := "A" }], autoInc := 2 } {}
        { body := .error "unexpected EOF" }).2.status = 400
      ∧ (createUser { rows := [{ ID := 1, Firstname := "A" }], autoInc := 2 } {}
        { body := .error "unexpected EOF" }).1.rows.length = 1 :=
  have h := createUser_bad_body_400 { rows := [{ ID := 1, Firstname := "A" }], autoInc := 2 }
    { body := .error "unexpected EOF" } "unexpected EOF" rfl
  ⟨h.1, h.2.2.2⟩

/-- When some stored row has the id looked up, the row returned has that id. -/
theorem FindWhereID_match (db : DB) (dest row : User) (id : Int)
    (hrow : row ∈ db.rows) (hmatch : (row.ID : Int) = id) :
    ((db.FindWhereID dest id).2.ID : Int) = id := by
  cases hfind : db.rows.find? (fun old => decide ((old.ID : Int) = id)) with
  | none =>
    rw [List.find?_eq_none] at hfind
    have hno := hfind row hrow
    simp [hmatch] at hno
  | some found =>
    have hfound := List.find?_some hfind
    simp only [DB.FindWhereID, hfind]
    simpa using hfound

/-- The response of `updateUser` on a stored record with a non-zero id. -/
theorem updateUser_of_found (db : DB) (r : Request) (user row : User) (user_id : Int)
    (hbody : r.body = .ok user) (hid : Atoi r.pathId = .ok user_id)
    (hrow : row ∈ db.rows) (hmatch : (row.ID : Int) = user_id) (hnz : row.ID ≠ 0) :
    updateUser db {} r =
      ((DB.Updates { db with log := db.log ++ [Call.FindWhereID user_id] } user_id user).1,
        { wroteHeader := some StatusOK, body := "Record updated successfuly" }) := by
  have hfound := FindWhereID_match db {} row user_id hrow hmatch
  have hne : (db.FindWhereID {} user_id).2.ID ≠ 0 := by
    intro h0
    rw [h0] at hfound
    rw [← hfound] at hmatch
    exact hnz (by exact_mod_cast hmatch)
  rw [updateUser_of_ok db r user user_id hbody hid, if_neg hne]

/-- An update either leaves the rows as they are or rewrites the rows with
the id by `merge`. -/
theorem Updates_rows (db : DB) (id : Int) (user : User) :
    (db.Updates id user).1.rows = db.rows
      ∨ (db.Updates id user).1.rows
          = db.rows.map (fun row => if (row.ID : Int) = id then DB.merge row user else row) := by
  simp only [DB.Updates]
  split
  · exact Or.inl rfl
  · split
    · exact Or.inl rfl
    · exact Or.inr rfl

/-- C6: `updateUser` on a stored record.  With a body that supplies only a
non-empty Firstname, the rows with the path id get that Firstname and keep
ID, Lastname and Occupation, and all other rows are unchanged.  For every
decoded body, row by row: a row with another id is unchanged, and each field
that is zero or empty in the body keeps its stored value. -/
theorem updateUser_keeps_unsupplied_fields (db : DB) (r : Request) (user row : User)
    (user_id : Int) (hbody : r.body = .ok user) (hid : Atoi r.pathId = .ok user_id)
    (hrow : row ∈ db.rows) (hmatch : (row.ID : Int) = user_id) (hnz : row.ID ≠ 0) :
    (user.ID = 0 → user.Firstname ≠ "" → user.Lastname = "" → user.Occupation = "" →
        (updateUser db {} r).1.rows
          = db.rows.map (fun old =>
              if (old.ID : Int) = user_id then { old with Firstname := user.Firstname } else old))
      ∧ List.Forall₂
          (fun old new =>
            ((old.ID : Int) ≠ user_id → new = old)
              ∧ (user.ID = 0 → new.ID = old.ID)
              ∧ (user.Firstname = "" → new.Firstname = old.Firstname)
              ∧ (user.Lastname = "" → new.Lastname = old.Lastname)
              ∧ (user.Occupation = "" → new.Occupation = old.Occupation))
          db.rows (updateUser db {} r).1.rows := by
  rw [updateUser_of_found db r user row user_id hbody hid hrow hmatch hnz]
  refine ⟨fun h0 hF hL hO => ?_, ?_⟩
  · have hrange : uintRange ≠ 0 := by decide
    simp [DB.Updates, DB.merge, h0, hF, hL, hO, hrange]
  · rcases Updates_rows { db with log := db.log ++ [Call.FindWhereID user_id] } user_id user
      with hrows | hrows
    · rw [hrows]
      exact List.forall₂_same.mpr (fun old _ => ⟨fun _ => rfl, fun _ => rfl, fun _ => rfl,
        fun _ => rfl, fun _ => rfl⟩)
    · rw [hrows, List.forall₂_map_right_iff]
      refine List.forall₂_same.mpr (fun old _ => ?_)
      by_cases hold : (old.ID : Int) = user_id
      · simp only [hold, if_true, DB.merge]
        refine ⟨fun hne => absurd rfl hne, ?_, ?_, ?_, ?_⟩ <;> intro hz <;> simp [hz]
      · rw [if_neg hold]
        exact ⟨fun _ => rfl, fun _ => rfl, fun _ => rfl, fun _ => rfl, fun _ => rfl⟩

theorem updateUser_keeps_unsupplied_fields_witness :
    (updateUser
        { rows := [{ ID := 1, Firstname := "A", Lastname := "B", Occupation := "C" },
                   { ID := 2, Firstname := "D", Lastname := "E", Occupation := "F" }],
          autoInc := 3 } {}
        { pathId := "2", body := .ok { Firstname := "X" } }).1.rows
      = [{ ID := 1, Firstname := "A", Lastname := "B", Occupation := "C" },
         { ID := 2, Firstname := "X", Lastname := "E", Occupation := "F" }] :=
  (updateUser_keeps_unsupplied_fields
    { rows := [{ ID := 1, Firstname := "A", Lastname := "B", Occupation := "C" },
               { ID := 2, Firstname := "D", Lastname := "E", Occupation := "F" }],
      autoInc := 3 }
    { pathId := "2", body := .ok { Firstname := "X" } } { Firstname := "X" }
    { ID := 2, Firstname := "D", Lastname := "E", Occupation := "F" } 2 rfl rfl
    (by decide) (by decide) (by decide)).1 rfl (by decide) rfl rfl

/-- The response of `createUser` when the body decodes. -/
theorem createUser_of_ok (db : DB) (r : Request) (user : User) (hbody : r.body = .ok user) :
    createUser db {} r
      = ((db.Create user).1, { wroteHeader := some StatusOK, body := "\x7b\x7d" }) := by
  simp [createUser, hbody, Write_fresh]

/-- A successful insert appends the row it returns; that row has the fields
of `user`, an id no other row has, and the id is not zero when the counter is
positive: the counter when `user` has no id, else the id of `user`. -/
theorem Create_ok (db : DB) (user : User) (hpos : 0 < db.autoInc)
    (hins : (db.Create user).2.2 = none) :
    (db.Create user).1.rows = db.rows ++ [(db.Create user).2.1]
      ∧ (∀ old ∈ db.rows, old.ID ≠ (db.Create user).2.1.ID)
      ∧ (db.Create user).2.1.ID ≠ 0
      ∧ (db.Create user).2.1
          = { user with ID := (db.Create user).2.1.ID }
      ∧ (db.Create user).2.1.ID = (if user.ID = 0 then db.autoInc else user.ID) := by
  unfold DB.Create at hins ⊢
  by_cases h0 : user.ID = 0
  · by_cases hbig : uintRange ≤ db.autoInc
    · simp [h0, hbig] at hins
    · by_cases hdup : (db.rows.any fun old => decide (old.ID = db.autoInc)) = true
      · simp [h0, hbig, hdup] at hins
      · simp only [h0, if_true, hbig, if_false, hdup] at hins ⊢
        refine ⟨rfl, ?_, Nat.pos_iff_ne_zero.mp hpos, rfl, rfl⟩
        intro old hold heq
        exact hdup (List.any_eq_true.mpr ⟨old, hold, by simpa using heq⟩)
  · by_cases hbig : uintRange ≤ user.ID
    · simp [h0, hbig] at hins
    · by_cases hdup : (db.rows.any fun old => decide (old.ID = user.ID)) = true
      · simp [h0, hbig, hdup] at hins
      · simp only [h0, if_false, hbig, hdup] at hins ⊢
        refine ⟨rfl, ?_, h0, rfl, rfl⟩
        intro old hold heq
        exact hdup (List.any_eq_true.mpr ⟨old, hold, by simpa using heq⟩)

/-- A lookup in a table whose last row is the only one with the id returns
that row. -/
theorem FindWhereID_append (db : DB) (dest new : User) (rows : List User)
    (hrows : db.rows = rows ++ [new]) (hfresh : ∀ old ∈ rows, old.ID ≠ new.ID) :
    (db.FindWhereID dest (new.ID : Int)).2 = new := by
  have hnone : rows.find? (fun old => decide ((old.ID : Int) = (new.ID : Int))) = none := by
    rw [List.find?_eq_none]
    intro old hold
    simpa using hfresh old hold
  simp only [DB.FindWhereID, hrows, List.find?_append, hnone]
  simp

/-- On a well-formed table an insert succeeds when the id of `user` is not
stored and the id the row is to get fits the column. -/
theorem Create_succeeds (db : DB) (user : User) (hwf : db.WF)
    (hfresh : ∀ row ∈ db.rows, row.ID ≠ user.ID)
    (hroom : (if user.ID = 0 then db.autoInc else user.ID) < uintRange) :
    (db.Create user).2.2 = none := by
  obtain ⟨_, _, hlt, _⟩ := hwf
  unfold DB.Create
  by_cases h0 : user.ID = 0
  · rw [if_pos h0] at hroom
    have hbig : ¬ uintRange ≤ db.autoInc := Nat.not_le.mpr hroom
    have hdup : (db.rows.any fun old => decide (old.ID = db.autoInc)) = false := by
      rw [List.any_eq_false]
      intro old hold
      have := hlt old hold
      simp only [decide_eq_true_eq]
      omega
    simp [h0, hbig, hdup]
  · rw [if_neg h0] at hroom
    have hbig : ¬ uintRange ≤ user.ID := Nat.not_le.mpr hroom
    have hdup : (db.rows.any fun old => decide (old.ID = user.ID)) = false := by
      rw [List.any_eq_false]
      intro old hold
      simpa using hfresh old hold
    simp [h0, hbig, hdup]

/-- C7 as stated fails, twice.  A body with id `2^63` is accepted and its row
is stored under that id, yet `getUser` with that id answers 404, because the
path id does not fit a Go `int`.  A body with an id that is already stored is
accepted with 200 and stores nothing, and `getUser` with that id returns the
old row. -/
theorem createUser_then_getUser_fails :
    createUser {} {} { body := .ok { ID := 9223372036854775808, Firstname := "X" } }
        = ({ rows := [{ ID := 9223372036854775808, Firstname := "X" }],
             autoInc := 9223372036854775809,
             log := [Call.Create { ID := 9223372036854775808, Firstname := "X" }] },
            { wroteHeader := some 200, body := "\x7b\x7d" })
      ∧ (getUser
          (createUser {} {}
            { body := .ok { ID := 9223372036854775808, Firstname := "X" } }).1 {}
          { pathId := "9223372036854775808" }).2
        = { wroteHeader := some 404, body := "Invalid User ID\n" }
      ∧ (createUser { rows := [{ ID := 1, Firstname := "A" }], autoInc := 2 } {}
          { body := .ok { ID := 1, Firstname := "X" } }).2
        = { wroteHeader := some 200, body := "\x7b\x7d" }
      ∧ (createUser { rows := [{ ID := 1, Firstname := "A" }], autoInc := 2 } {}
          { body := .ok { ID := 1, Firstname := "X" } }).1.rows
        = [{ ID := 1, Firstname := "A" }]
      ∧ (getUser
          (createUser { rows := [{ ID := 1, Firstname := "A" }], autoInc := 2 } {}
            { body := .ok { ID := 1, Firstname := "X" } }).1 {} { pathId := "1" }).2.body
        = "\x7b\n \"ID\": 1,\n \"Firstname\": \"A\",\n \"Lastname\": \"\",\n \"Occupation\": \"\"\n\x7d" := by
  refine ⟨?_, ?_, ?_, ?_, ?_⟩ <;> rfl

/-- C7 amended: create then get.  On a well-formed table, when `createUser`
decodes the body to a `user` whose id is not stored and the id the new row is
to get (the counter for a body without id, else the id of the body) is below
`2^63`, the answer is 200, the insert succeeds and the table gains the row
gorm writes back under that id; the decimal form of the id is a path id that
parses to it, and a following `getUser` whose path id parses to it answers
200 with the serialization of a `User` that has that id and the Firstname,
Lastname and Occupation of `user`. -/
theorem createUser_then_getUser (db : DB) (r g : Request) (user : User)
    (hwf : db.WF) (hbody : r.body = .ok user)
    (hfresh : ∀ row ∈ db.rows, row.ID ≠ user.ID)
    (hsmall : (if user.ID = 0 then db.autoInc else user.ID) < 2 ^ 63)
    (hid : Atoi g.pathId = .ok ((db.Create user).2.1.ID : Int)) :
    (createUser db {} r).2.status = 200
      ∧ (db.Create user).2.2 = none
      ∧ (db.Create user).2.1.ID = (if user.ID = 0 then db.autoInc else user.ID)
      ∧ (createUser db {} r).1.rows = db.rows ++ [(db.Create user).2.1]
      ∧ Atoi (toString (db.Create user).2.1.ID) = .ok ((db.Create user).2.1.ID : Int)
      ∧ (getUser (createUser db {} r).1 {} g).2.status = 200
      ∧ MarshalIndentUser
          { ID := (db.Create user).2.1.ID, Firstname := user.Firstname,
            Lastname := user.Lastname, Occupation := user.Occupation }
          = .ok (getUser (createUser db {} r).1 {} g).2.body := by
  have hroom : (if user.ID = 0 then db.autoInc else user.ID) < uintRange :=
    lt_trans hsmall (by decide)
  have hins := Create_succeeds db user hwf hfresh hroom
  obtain ⟨hrows, hnew_fresh, hnz, hnew, hnewid⟩ := Create_ok db user hwf.1 hins
  have hfind := FindWhereID_append (db.Create user).1 {} (db.Create user).2.1 db.rows
    hrows hnew_fresh
  have hdec : Atoi (toString (db.Create user).2.1.ID) = .ok ((db.Create user).2.1.ID : Int) :=
    Atoi_toString _ (by rw [hnewid]; exact hsmall)
  rw [createUser_of_ok db r user hbody,
    getUser_of_ok (db.Create user).1 g _ hid, hfind, if_neg hnz]
  refine ⟨rfl, hins, hnewid, hrows, hdec, rfl, ?_⟩
  simp only [MarshalIndentUser]
  rw [← hnew]

theorem createUser_then_getUser_witness :
    (getUser (createUser { rows := [{ ID := 1, Firstname := "A" }], autoInc := 2 } {}
        { body := .ok { Firstname := "X", Lastname := "Y", Occupation := "Z" } }).1 {}
        { pathId := "2" }).2
      = { wroteHeader := some 200,
          body := "\x7b\n \"ID\": 2,\n \"Firstname\": \"X\",\n \"Lastname\": \"Y\",\n \"Occupation\": \"Z\"\n\x7d" } :=
  have h := createUser_then_getUser { rows := [{ ID := 1, Firstname := "A" }], autoInc := 2 }
    { body := .ok { Firstname := "X", Lastname := "Y", Occupation := "Z" } }
    { pathId := "2" } { Firstname := "X", Lastname := "Y", Occupation := "Z" }
    (by decide) rfl (by decide) (by decide) rfl
  congrArg₂ ResponseWriter.mk (congrArg some h.2.2.2.2.2.1) (Except.ok.inj h.2.2.2.2.2.2).symm

/-- The response of `deleteUser` when the path id parses. -/
theorem deleteUser_of_ok (db : DB) (r : Request) (user_id : Int)
    (hid : Atoi r.pathId = .ok user_id) :
    deleteUser db {} r
      = ((db.Delete user_id).1, { wroteHeader := some StatusOK, body := "Record Deleted" }) := by
  simp [deleteUser, hid, Write_fresh]

/-- The response of `deleteUser` when the path id does not parse. -/
theorem deleteUser_of_error (db : DB) (r : Request) (e : NumError)
    (hid : Atoi r.pathId = .error e) :
    deleteUser db {} r
      = (db, { wroteHeader := some StatusNotFound, body := "Invalid User ID\n" }) := by
  simp [deleteUser, hid, Error_fresh]

/-- With unique ids, removing the rows with the id of a stored row removes
that row alone. -/
theorem filter_id_eq_erase (rows : List User) (row : User)
    (hnodup : (rows.map User.ID).Nodup) (hrow : row ∈ rows) :
    rows.filter (fun old => decide (¬ ((old.ID : Int) = (row.ID : Int)))) = rows.erase row := by
  have hrows : rows.Nodup := List.Nodup.of_map _ hnodup
  rw [hrows.erase_eq_filter]
  apply List.filter_congr
  intro old hold
  have hiff : old.ID = row.ID ↔ old = row :=
    ⟨fun h => List.inj_on_of_nodup_map hnodup hold hrow h, fun h => by rw [h]⟩
  by_cases h : old = row
  · simp [h]
  · have hne : old.ID ≠ row.ID := fun hh => h (hiff.mp hh)
    simp [h, hne]

/-- C8 as stated fails: in a well-formed table that stores a row with id
`2^63`, `deleteUser` with that id answers 404 with `Invalid User ID`, issues
no delete and the row stays, because the path id does not fit a Go `int`. -/
theorem deleteUser_large_id_fails :
    DB.WF { rows := [{ ID := 9223372036854775808, Firstname := "A" }],
            autoInc := 9223372036854775809 }
      ∧ DB.InRange { rows := [{ ID := 9223372036854775808, Firstname := "A" }],
                     autoInc := 9223372036854775809 }
      ∧ Atoi "9223372036854775808" = .error NumError.ErrRange
      ∧ deleteUser { rows := [{ ID := 9223372036854775808, Firstname := "A" }],
                     autoInc := 9223372036854775809 } {}
          { pathId := "9223372036854775808" }
        = ({ rows := [{ ID := 9223372036854775808, Firstname := "A" }],
             autoInc := 9223372036854775809 },
            { wroteHeader := some 404, body := "Invalid User ID\n" }) := by
  refine ⟨by decide, by decide, rfl, rfl⟩

/-- C8 amended: delete then get.  On a well-formed table, for a stored row
whose id is below `2^63`, the decimal form of the id is a path id that parses
to it, and `deleteUser` with a path id that parses to it answers 200 with
`Record Deleted`; the table afterwards is the old one with that row erased,
all other rows in place and the counter as before; a following `getUser` with
the same path id answers 200 with an empty JSON object. -/
theorem deleteUser_then_getUser (db : DB) (r : Request) (row : User) (hwf : db.WF)
    (hrow : row ∈ db.rows) (hsmall : row.ID < 2 ^ 63)
    (hid : Atoi r.pathId = .ok (row.ID : Int)) :
    Atoi (toString row.ID) = .ok (row.ID : Int)
      ∧ (deleteUser db {} r).2.status = 200
      ∧ (deleteUser db {} r).2.body = "Record Deleted"
      ∧ (deleteUser db {} r).1.rows = db.rows.erase row
      ∧ (deleteUser db {} r).1.rows.length + 1 = db.rows.length
      ∧ (∀ other ∈ db.rows, other ≠ row → other ∈ (deleteUser db {} r).1.rows)
      ∧ (deleteUser db {} r).1.autoInc = db.autoInc
      ∧ (getUser (deleteUser db {} r).1 {} r).2.status = 200
      ∧ (getUser (deleteUser db {} r).1 {} r).2.body = "\x7b\x7d" := by
  have herase : (db.Delete (row.ID : Int)).1.rows = db.rows.erase row :=
    filter_id_eq_erase db.rows row hwf.2.2.2 hrow
  have hgone : ∀ old ∈ (db.Delete (row.ID : Int)).1.rows, (old.ID : Int) ≠ (row.ID : Int) := by
    intro old hold
    simp only [DB.Delete, List.mem_filter] at hold
    simpa using hold.2
  rw [deleteUser_of_ok db r _ hid, getUser_of_ok _ r _ hid,
    FindWhereID_none _ {} _ hgone]
  refine ⟨Atoi_toString row.ID hsmall, rfl, rfl, herase, ?_, ?_, rfl, rfl, rfl⟩
  · rw [herase, List.length_erase_of_mem hrow]
    have hpos : 0 < db.rows.length := List.length_pos_of_mem hrow
    omega
  · intro other hother hne
    rw [herase]
    exact (List.mem_erase_of_ne hne).mpr hother

theorem deleteUser_then_getUser_witness :
    (deleteUser { rows := [{ ID := 1, Firstname := "A" }, { ID := 2, Firstname := "B" }],
                  autoInc := 3 } {} { pathId := "1" }).1.rows = [{ ID := 2, Firstname := "B" }]
      ∧ (getUser
          (deleteUser { rows := [{ ID := 1, Firstname := "A" }, { ID := 2, Firstname := "B" }],
                        autoInc := 3 } {} { pathId := "1" }).1 {} { pathId := "1" }).2.body
          = "\x7b\x7d" :=
  have h := deleteUser_then_getUser
    { rows := [{ ID := 1, Firstname := "A" }, { ID := 2, Firstname := "B" }], autoInc := 3 }
    { pathId := "1" } { ID := 1, Firstname := "A" } (by decide) (by decide) (by decide) rfl
  ⟨h.2.2.2.1, h.2.2.2.2.2.2.2.2⟩

/-- C9: for every store and request, `getUsers` answers 200; `getUser` and
`deleteUser` answer non-200 exactly when the path id does not parse, and then
404; `createUser` answers non-200 exactly when the body does not decode, and
then 400; `updateUser` answers non-200 exactly when the body does not decode
(400), the path id does not parse (404) or the lookup finds no record (400).
A write the store rejects does not change the status: it is 200. -/
theorem status_non_200_iff (db : DB) (r : Request) :
    (getUsers db {} r).2.status = 200
      ∧ (((getUser db {} r).2.status ≠ 200 ↔ malformedPathId r = true)
          ∧ (malformedPathId r = true → (getUser db {} r).2.status = 404))
      ∧ (((createUser db {} r).2.status ≠ 200 ↔ malformedBody r = true)
          ∧ (malformedBody r = true → (createUser db {} r).2.status = 400))
      ∧ (((updateUser db {} r).2.status ≠ 200
            ↔ malformedBody r = true ∨ malformedPathId r = true ∨ lookupMisses db r = true)
          ∧ (malformedBody r = true → (updateUser db {} r).2.status = 400)
          ∧ (malformedBody r = false → malformedPathId r = true →
              (updateUser db {} r).2.status = 404)
          ∧ (malformedBody r = false → lookupMisses db r = true →
              (updateUser db {} r).2.status = 400))
      ∧ (((deleteUser db {} r).2.status ≠ 200 ↔ malformedPathId r = true)
          ∧ (malformedPathId r = true → (deleteUser db {} r).2.status = 404))
      ∧ (∀ user e, r.body = .ok user → (db.Create user).2.2 = some e →
          (createUser db {} r).2.status = 200)
      ∧ (∀ user user_id e, r.body = .ok user → Atoi r.pathId = .ok user_id →
          (db.FindWhereID {} user_id).2.ID ≠ 0 →
          ((db.FindWhereID {} user_id).1.Updates user_id user).2 = some e →
          (updateUser db {} r).2.status = 200) := by
  refine ⟨?_, ?_, ?_, ?_, ?_, ?_, ?_⟩
  · simp [getUsers, DB.Find, MarshalIndentUsers, Write_fresh, ResponseWriter.status, StatusOK]
  · cases hid : Atoi r.pathId with
    | error e =>
      rw [getUser_of_error db r e hid]
      simp [malformedPathId, hid, ResponseWriter.status, StatusNotFound]
    | ok user_id =>
      rw [getUser_of_ok db r user_id hid]
      simp [malformedPathId, hid, ResponseWriter.status, StatusOK]
  · cases hbody : r.body with
    | error e =>
      simp [createUser, malformedBody, hbody, Error_fresh, ResponseWriter.status,
        StatusBadRequest]
    | ok user =>
      rw [createUser_of_ok db r user hbody]
      simp [malformedBody, hbody, ResponseWriter.status, StatusOK]
  · cases hbody : r.body with
    | error e =>
      simp [updateUser, malformedBody, hbody, Error_fresh, ResponseWriter.status,
        StatusBadRequest]
    | ok user =>
      cases hid : Atoi r.pathId with
      | error e =>
        simp [updateUser, malformedBody, malformedPathId, lookupMisses, hbody, hid,
          Error_fresh, ResponseWriter.status, StatusNotFound]
      | ok user_id =>
        rw [updateUser_of_ok db r user user_id hbody hid]
        by_cases hfind : (db.FindWhereID {} user_id).2.ID = 0
        · simp [malformedBody, malformedPathId, lookupMisses, hbody, hid, hfind,
            ResponseWriter.status, StatusBadRequest]
        · simp [malformedBody, malformedPathId, lookupMisses, hbody, hid, hfind,
            ResponseWriter.status, StatusOK]
  · cases hid : Atoi r.pathId with
    | error e =>
      rw [deleteUser_of_error db r e hid]
      simp [malformedPathId, hid, ResponseWriter.status, StatusNotFound]
    | ok user_id =>
      rw [deleteUser_of_ok db r user_id hid]
      simp [malformedPathId, hid, ResponseWriter.status, StatusOK]
  · intro user e hbody _
    rw [createUser_of_ok db r user hbody]
    rfl
  · intro user user_id e hbody hid hfind _
    rw [updateUser_of_ok db r user user_id hbody hid, if_neg hfind]
    rfl

theorem status_non_200_iff_witness :
    (DB.Create { rows := [{ ID := 1, Firstname := "A" }], autoInc := 2 }
        { ID := 1, Firstname := "X" }).2.2 = some DBError.ErrDuplicatedKey
      ∧ (createUser { rows := [{ ID := 1, Firstname := "A" }], autoInc := 2 } {}
          { body := .ok { ID := 1, Firstname := "X" } }).2.status = 200
      ∧ (updateUser { rows := [{ ID := 1, Firstname := "A" }], autoInc := 2 } {}
          { pathId := "5", body := .ok { Firstname := "X" } }).2.status = 400 :=
  ⟨rfl,
    (status_non_200_iff { rows := [{ ID := 1, Firstname := "A" }], autoInc := 2 }
      { body := .ok { ID := 1, Firstname := "X" } }).2.2.2.2.2.1
      { ID := 1, Firstname := "X" } DBError.ErrDuplicatedKey rfl rfl,
    (status_non_200_iff { rows := [{ ID := 1, Firstname := "A" }], autoInc := 2 }
      { pathId := "5", body := .ok { Firstname := "X" } }).2.2.2.1.2.2.2 rfl rfl⟩

/-- C10 as stated fails: the path id `-1` parses, the store is queried and
the answer is 200 with an empty JSON object, not 404. -/
theorem getUser_negative_id_accepted :
    Atoi "-1" = .ok (-1)
      ∧ getUser { rows := [{ ID := 1, Firstname := "A" }], autoInc := 2 } {} { pathId := "-1" }
          = ({ rows := [{ ID := 1, Firstname := "A" }], autoInc := 2,
               log := [Call.FindWhereID (-1)] },
              { wroteHeader := some 200, body := "\x7b\x7d" })
      ∧ ¬ ((getUser { rows := [{ ID := 1, Firstname := "A" }], autoInc := 2 } {}
              { pathId := "-1" }).2.status = 404
            ∧ (getUser { rows := [{ ID := 1, Firstname := "A" }], autoInc := 2 } {}
              { pathId := "-1" }).1.log = []) := by
  refine ⟨rfl, rfl, ?_⟩
  decide

/-- C10 amended: `getUser` accepts the path ids that `strconv.Atoi` parses,
negative ones included.  A path id that does not parse gets 404 with the line
`Invalid User ID` and no query; a path id that parses to a negative integer
gets one lookup, which matches no row, and 200 with an empty JSON object. -/
theorem getUser_accepts_integers (db : DB) (r : Request) :
    (∀ e, Atoi r.pathId = .error e →
        getUser db {} r
          = (db, { wroteHeader := some 404, body := "Invalid User ID\n" }))
      ∧ (∀ user_id, Atoi r.pathId = .ok user_id → user_id < 0 →
        getUser db {} r
          = ({ db with log := db.log ++ [Call.FindWhereID user_id] },
              { wroteHeader := some 200, body := "\x7b\x7d" })) := by
  refine ⟨fun e herr => getUser_of_error db r e herr, fun user_id hid hneg => ?_⟩
  have hnone : ∀ row ∈ db.rows, (row.ID : Int) ≠ user_id := by
    intro row _ heq
    have hnonneg : (0 : Int) ≤ (row.ID : Int) := Int.ofNat_nonneg _
    omega
  rw [getUser_of_ok db r user_id hid, FindWhereID_none db {} user_id hnone]
  rfl

theorem getUser_accepts_integers_witness :
    getUser { rows := [{ ID := 1, Firstname := "A" }], autoInc := 2 } {} { pathId := "1x" }
        = ({ rows := [{ ID := 1, Firstname := "A" }], autoInc := 2 },
            { wroteHeader := some 404, body := "Invalid User ID\n" })
      ∧ getUser { rows := [{ ID := 1, Firstname := "A" }], autoInc := 2 } {} { pathId := "-12" }
        = ({ rows := [{ ID := 1, Firstname := "A" }], autoInc := 2,
             log := [Call.FindWhereID (-12)] },
            { wroteHeader := some 200, body := "\x7b\x7d" }) :=
  ⟨(getUser_accepts_integers { rows := [{ ID := 1, Firstname := "A" }], autoInc := 2 }
      { pathId := "1x" }).1 NumError.ErrSyntax rfl,
    (getUser_accepts_integers { rows := [{ ID := 1, Firstname := "A" }], autoInc := 2 }
      { pathId := "-12" }).2 (-12) rfl (by decide)⟩

/-! ## The table invariant holds in every reachable store -/

/-- The empty table with counter 1 is well-formed. -/
theorem WF_empty : ({} : DB).WF ∧ ({} : DB).InRange := by decide

/-- Appending a row with a new non-zero id below the new counter keeps the
table well-formed. -/
theorem WF_append (db : DB) (new : User) (counter : Nat) (log : List Call) (hwf : db.WF)
    (hnz : new.ID ≠ 0) (hfresh : ∀ row ∈ db.rows, row.ID ≠ new.ID)
    (hnew : new.ID < counter) (hmono : db.autoInc ≤ counter) :
    DB.WF { rows := db.rows ++ [new], autoInc := counter, log := log } := by
  obtain ⟨hpos, hnzs, hlt, hnodup⟩ := hwf
  refine ⟨lt_of_lt_of_le hpos hmono, ?_, ?_, ?_⟩
  · intro row hrow
    rcases List.mem_append.mp hrow with h | h
    · exact hnzs row h
    · rw [List.mem_singleton.mp h]
      exact hnz
  · intro row hrow
    rcases List.mem_append.mp hrow with h | h
    · exact lt_of_lt_of_le (hlt row h) hmono
    · rw [List.mem_singleton.mp h]
      exact hnew
  · show (List.map User.ID (db.rows ++ [new])).Nodup
    simp only [List.map_append, List.map_cons, List.map_nil]
    rw [List.nodup_append]
    refine ⟨hnodup, List.nodup_singleton _, ?_⟩
    intro a ha hb
    obtain ⟨row, hrow, rfl⟩ := List.mem_map.mp ha
    exact hfresh row hrow (List.mem_singleton.mp hb)

/-- An insert keeps the table well-formed. -/
theorem Create_WF (db : DB) (user : User) (hwf : db.WF) : (db.Create user).1.WF := by
  have hwf0 := hwf
  obtain ⟨hpos, hnz, hlt, hnodup⟩ := hwf
  unfold DB.Create
  by_cases h0 : user.ID = 0
  · by_cases hbig : uintRange ≤ db.autoInc
    · simp only [h0, if_true, hbig]
      exact hwf0
    · have hdup : (db.rows.any fun old => decide (old.ID = db.autoInc)) = false := by
        rw [List.any_eq_false]
        intro old hold
        have := hlt old hold
        simp only [decide_eq_true_eq]
        omega
      simp only [h0, if_true, hbig, if_false, hdup]
      refine WF_append db _ _ _ hwf0 (Nat.pos_iff_ne_zero.mp hpos) ?_ (Nat.lt_succ_self _)
        (Nat.le_succ _)
      intro row hrow
      exact Nat.ne_of_lt (hlt row hrow)
  · by_cases hbig : uintRange ≤ user.ID
    · simp only [h0, if_false, hbig, if_true]
      exact hwf0
    · by_cases hdup : (db.rows.any fun old => decide (old.ID = user.ID)) = true
      · simp only [h0, if_false, hbig, hdup, if_true]
        exact hwf0
      · simp only [h0, if_false, hbig, hdup]
        refine WF_append db _ _ _ hwf0 h0 ?_ (lt_max_of_lt_right (Nat.lt_succ_self _))
          (le_max_left _ _)
        intro row hrow heq
        exact hdup (List.any_eq_true.mpr ⟨row, hrow, by simpa using heq⟩)

/-- A delete keeps the table well-formed. -/
theorem Delete_WF (db : DB) (id : Int) (hwf : db.WF) : (db.Delete id).1.WF := by
  obtain ⟨hpos, hnz, hlt, hnodup⟩ := hwf
  refine ⟨hpos, ?_, ?_, ?_⟩
  · intro row hrow
    exact hnz row (List.mem_of_mem_filter hrow)
  · intro row hrow
    exact hlt row (List.mem_of_mem_filter hrow)
  · exact hnodup.sublist ((List.filter_sublist _).map User.ID)

/-- An update keeps the table well-formed. -/
theorem Updates_WF (db : DB) (id : Int) (user : User) (hwf : db.WF) :
    (db.Updates id user).1.WF := by
  have hwf0 := hwf
  obtain ⟨hpos, hnz, hlt, hnodup⟩ := hwf
  simp only [DB.Updates]
  split
  · exact hwf0
  split
  · exact hwf0
  · rename_i hconf
    have hauto : db.autoInc ≤ (if (db.rows.any fun row => decide ((row.ID : Int) = id)) = true
        then max db.autoInc (user.ID + 1) else db.autoInc) := by
      split
      · exact le_max_left _ _
      · exact le_refl _
    refine ⟨lt_of_lt_of_le hpos hauto, ?_, ?_, ?_⟩
    · intro row hrow
      obtain ⟨old, hold, rfl⟩ := List.mem_map.mp hrow
      by_cases hm : (old.ID : Int) = id
      · simp only [hm, if_true, DB.merge]
        by_cases h0 : user.ID = 0
        · simpa [h0] using hnz old hold
        · simp [h0]
      · simpa [hm] using hnz old hold
    · intro row hrow
      obtain ⟨old, hold, rfl⟩ := List.mem_map.mp hrow
      by_cases hm : (old.ID : Int) = id
      · have hany : (db.rows.any fun row => decide ((row.ID : Int) = id)) = true :=
          List.any_eq_true.mpr ⟨old, hold, by simpa using hm⟩
        simp only [hm, if_true, DB.merge, hany]
        by_cases h0 : user.ID = 0
        · simp only [h0, if_true]
          exact lt_max_of_lt_left (hlt old hold)
        · simp only [h0, if_false]
          exact lt_max_of_lt_right (Nat.lt_succ_self _)
      · simp only [hm, if_false]
        exact lt_of_lt_of_le (hlt old hold) hauto
    · simp only [List.map_map]
      have hfun : ∀ old ∈ db.rows,
          (User.ID ∘ fun row => if (row.ID : Int) = id then DB.merge row user else row) old
            = (fun k : Nat => if (k : Int) = id then (if user.ID = 0 then k else user.ID) else k)
                old.ID := by
        intro old _
        by_cases hm : (old.ID : Int) = id <;> simp [hm, DB.merge]
      rw [List.map_congr_left hfun]
      show (List.map ((fun k : Nat =>
        if (k : Int) = id then (if user.ID = 0 then k else user.ID) else k) ∘ User.ID)
          db.rows).Nodup
      rw [← List.map_map]
      refine List.Nodup.map_on ?_ hnodup
      intro a ha b hb hab
      obtain ⟨ra, hra, rfl⟩ := List.mem_map.mp ha
      obtain ⟨rb, hrb, rfl⟩ := List.mem_map.mp hb
      by_cases h0 : user.ID = 0
      · by_cases hma : (ra.ID : Int) = id <;> by_cases hmb : (rb.ID : Int) = id <;>
          simpa [h0, hma, hmb] using hab
      · by_cases hma : (ra.ID : Int) = id
        · by_cases hmb : (rb.ID : Int) = id
          · exact_mod_cast hma.trans hmb.symm
          · exfalso
            simp only [hma, hmb, if_true, if_false, h0] at hab
            exact hconf ⟨h0, List.any_eq_true.mpr ⟨ra, hra, by simpa using hma⟩,
              List.any_eq_true.mpr ⟨rb, hrb, by simpa using ⟨hab.symm, hmb⟩⟩⟩
        · by_cases hmb : (rb.ID : Int) = id
          · exfalso
            simp only [hma, hmb, if_true, if_false, h0] at hab
            exact hconf ⟨h0, List.any_eq_true.mpr ⟨rb, hrb, by simpa using hmb⟩,
              List.any_eq_true.mpr ⟨ra, hra, by simpa using ⟨hab, hma⟩⟩⟩
          · simpa [hma, hmb] using hab

/-- An insert keeps the counter in range. -/
theorem Create_InRange (db : DB) (user : User) (hmax : db.InRange) :
    (db.Create user).1.InRange := by
  unfold DB.InRange at hmax ⊢
  unfold DB.Create
  by_cases h0 : user.ID = 0
  · by_cases hbig : uintRange ≤ db.autoInc
    · simp only [h0, if_true, hbig]
      exact hmax
    · simp only [h0, if_true, hbig, if_false]
      split <;> exact Nat.succ_le_of_lt (Nat.not_le.mp hbig)
  · by_cases hbig : uintRange ≤ user.ID
    · simp only [h0, if_false, hbig, if_true]
      exact hmax
    · simp only [h0, if_false, hbig]
      split
      · exact hmax
      · exact max_le hmax (Nat.succ_le_of_lt (Nat.not_le.mp hbig))

/-- An update keeps the counter in range. -/
theorem Updates_InRange (db : DB) (id : Int) (user : User) (hmax : db.InRange) :
    (db.Updates id user).1.InRange := by
  unfold DB.InRange at hmax ⊢
  simp only [DB.Updates]
  split
  · exact hmax
  rename_i hbig
  split
  · exact hmax
  · show (if _ then _ else _) ≤ uintRange
    split
    · exact max_le hmax (Nat.succ_le_of_lt (Nat.not_le.mp hbig))
    · exact hmax

/-- In a well-formed table with the counter in range every stored id fits a
Go `uint`. -/
theorem stored_id_lt_uintRange (db : DB) (hwf : db.WF) (hmax : db.InRange) :
    ∀ row ∈ db.rows, row.ID < uintRange :=
  fun row hrow => lt_of_lt_of_le (hwf.2.2.1 row hrow) hmax

/-- Every handler keeps the counter in range, whatever the request. -/
theorem handlers_preserve_InRange (db : DB) (w : ResponseWriter) (r : Request)
    (hmax : db.InRange) :
    (getUsers db w r).1.InRange ∧ (getUser db w r).1.InRange ∧ (createUser db w r).1.InRange
      ∧ (updateUser db w r).1.InRange ∧ (deleteUser db w r).1.InRange := by
  have hlog : ∀ (d : DB) (l : List Call), d.InRange → DB.InRange { d with log := l } :=
    fun _ _ h => h
  refine ⟨?_, ?_, ?_, ?_, ?_⟩
  · simp only [getUsers, DB.Find, MarshalIndentUsers]
    exact hmax
  · simp only [getUser]
    split
    · exact hmax
    · simp only [MarshalIndentUser, DB.FindWhereID]
      split <;> exact hmax
  · simp only [createUser]
    split
    · exact hmax
    · exact Create_InRange db _ hmax
  · simp only [updateUser]
    split
    · exact hmax
    · split
      · exact hmax
      · simp only [DB.FindWhereID]
        split
        · exact hmax
        · exact Updates_InRange _ _ _ (hlog db _ hmax)
  · simp only [deleteUser]
    split
    · exact hmax
    · exact hmax

/-- Every handler keeps the table well-formed, whatever the request. -/
theorem handlers_preserve_WF (db : DB) (w : ResponseWriter) (r : Request) (hwf : db.WF) :
    (getUsers db w r).1.WF ∧ (getUser db w r).1.WF ∧ (createUser db w r).1.WF
      ∧ (updateUser db w r).1.WF ∧ (deleteUser db w r).1.WF := by
  have hlog : ∀ (d : DB) (l : List Call), d.WF → DB.WF { d with log := l } := fun _ _ h => h
  refine ⟨?_, ?_, ?_, ?_, ?_⟩
  · simp only [getUsers, DB.Find, MarshalIndentUsers]
    exact hwf
  · simp only [getUser]
    split
    · exact hwf
    · simp only [MarshalIndentUser, DB.FindWhereID]
      split <;> exact hwf
  · simp only [createUser]
    split
    · exact hwf
    · exact Create_WF db _ hwf
  · simp only [updateUser]
    split
    · exact hwf
    · split
      · exact hwf
      · simp only [DB.FindWhereID]
        split
        · exact hwf
        · exact Updates_WF _ _ _ (hlog db _ hwf)
  · simp only [deleteUser]
    split
    · exact hwf
    · exact Delete_WF db _ hwf

end GoRestfulApi
